import Mathlib

/-
Verification development for the fruit-jam-usb-midi-tester driver.

Shallow embedding of `sb_usb_descriptor.py` (descriptor splitting and
parsing) and `sb_usb_midi.py` (device scanning, endpoint resolution, and
the interval-aware polling read loop).  Bytes are modelled as `Nat`,
byte buffers as `List Nat`, Python exceptions as `Except`, and the two
generator functions as explicit state machines over input traces.
-/

/-- Read byte `i` of a buffer.  All Python byte buffers in this driver are
fixed-size `bytearray`s, so in-range reads are total; out-of-range reads
do not occur (this is proved where it matters via checked variants). -/
def byteAt (data : List Nat) (i : Nat) : Nat := data.getD i 0

theorem byteAt_eq_getElem (data : List Nat) (i : Nat) (h : i < data.length) :
    byteAt data i = data[i] := List.getD_eq_getElem data 0 h

theorem getElem?_eq_some_byteAt (data : List Nat) (i : Nat) (h : i < data.length) :
    data[i]? = some (byteAt data i) := by
  rw [List.getElem?_eq_getElem h, byteAt_eq_getElem data i h]

theorem headD_drop (l : List Nat) (n : Nat) : (l.drop n).headD 0 = byteAt l n := by
  induction l generalizing n with
  | nil => cases n <;> simp [byteAt, List.getD]
  | cons a t ih =>
    cases n with
    | zero => simp [byteAt, List.getD]
    | succ m => exact ih m

theorem headD_take (l : List Nat) (n : Nat) (hn : n ≠ 0) :
    (l.take n).headD 0 = l.headD 0 := by
  cases l with
  | nil => simp
  | cons a t => cases n with
    | zero => exact absurd rfl hn
    | succ m => simp

/-! ## Descriptor splitting (`sb_usb_descriptor.split_desc`) -/

/-- Loop body of `split_desc` (sb_usb_descriptor.py lines 26-44).
The Python loop `for i in range(limit)` runs at most `limit` iterations
and every iteration that appends a slice advances `cursor` by at least 1,
so running with fuel `data.length` is exact. -/
def splitGo (data : List Nat) : Nat → Nat → List (List Nat)
  | 0, _ => []
  | fuel + 1, cursor =>
    if cursor = data.length then []
    else if byteAt data cursor = 0 then []
    else if data.length < cursor + byteAt data cursor then []
    else ((data.drop cursor).take (byteAt data cursor)) ::
      splitGo data fuel (cursor + byteAt data cursor)

/-- `split_desc(data)` from sb_usb_descriptor.py: split a combined
descriptor blob into its individual sub-descriptor slices. -/
def split_desc (data : List Nat) : List (List Nat) := splitGo data data.length 0

/-- Variant of `splitGo` in which the read of `data[cursor]` is a checked
access: it returns `none` if the read would go out of bounds.  Used to
state that the source loop never indexes out of bounds. -/
def splitGoSafe (data : List Nat) : Nat → Nat → Option (List (List Nat))
  | 0, _ => some []
  | fuel + 1, cursor =>
    if cursor = data.length then some []
    else
      match data[cursor]? with
      | none => none
      | some len =>
        if len = 0 then some []
        else if data.length < cursor + len then some []
        else
          (splitGoSafe data fuel (cursor + len)).map
            (fun r => ((data.drop cursor).take len) :: r)

/-- Checked-access version of `split_desc`. -/
def splitDescSafe (data : List Nat) : Option (List (List Nat)) :=
  splitGoSafe data data.length 0

theorem splitGo_zero (data : List Nat) (cursor : Nat) :
    splitGo data 0 cursor = [] := rfl

theorem splitGo_succ (data : List Nat) (fuel cursor : Nat) :
    splitGo data (fuel + 1) cursor =
      if cursor = data.length then []
      else if byteAt data cursor = 0 then []
      else if data.length < cursor + byteAt data cursor then []
      else ((data.drop cursor).take (byteAt data cursor)) ::
        splitGo data fuel (cursor + byteAt data cursor) := rfl

theorem splitGoSafe_zero (data : List Nat) (cursor : Nat) :
    splitGoSafe data 0 cursor = some [] := rfl

theorem splitGoSafe_succ_eq (data : List Nat) (fuel cursor : Nat)
    (hne : cursor ≠ data.length) (hlt : cursor < data.length) :
    splitGoSafe data (fuel + 1) cursor =
      if byteAt data cursor = 0 then some []
      else if data.length < cursor + byteAt data cursor then some []
      else
        (splitGoSafe data fuel (cursor + byteAt data cursor)).map
          (fun r => ((data.drop cursor).take (byteAt data cursor)) :: r) := by
  show (if cursor = data.length then some [] else _) = _
  rw [if_neg hne, getElem?_eq_some_byteAt data cursor hlt]

/-- Main invariant lemma for the splitter loop: all produced slices are
whole (length-prefixed) slices, their concatenation is a contiguous
prefix of the remaining buffer, the loop stops exactly at end-of-buffer,
a zero length prefix, or an overrunning length prefix, and the checked
variant agrees (no out-of-bounds access). -/
theorem splitGo_spec (data : List Nat) (fuel : Nat) :
    ∀ cursor, cursor ≤ data.length → data.length - cursor ≤ fuel →
      (∀ s ∈ splitGo data fuel cursor, s ≠ [] ∧ s.headD 0 = s.length) ∧
      (∃ t, (splitGo data fuel cursor).flatten ++ t = data.drop cursor) ∧
      (cursor + (splitGo data fuel cursor).flatten.length = data.length ∨
        byteAt data (cursor + (splitGo data fuel cursor).flatten.length) = 0 ∨
        data.length < cursor + (splitGo data fuel cursor).flatten.length +
          byteAt data (cursor + (splitGo data fuel cursor).flatten.length)) ∧
      splitGoSafe data fuel cursor = some (splitGo data fuel cursor) := by
  induction fuel with
  | zero =>
    intro cursor hc hf
    have hcl : cursor = data.length := by omega
    refine ⟨by simp [splitGo_zero], ⟨data.drop cursor, by simp [splitGo_zero]⟩, ?_,
      by simp [splitGo_zero, splitGoSafe_zero]⟩
    left
    simpa [splitGo_zero] using hcl
  | succ fuel ih =>
    intro cursor hc hf
    by_cases hstop : cursor = data.length
    · have hgo : splitGo data (fuel + 1) cursor = [] := by
        rw [splitGo_succ, if_pos hstop]
      have hsafe : splitGoSafe data (fuel + 1) cursor = some [] := by
        show (if cursor = data.length then some [] else _) = _
        rw [if_pos hstop]
      refine ⟨by simp [hgo], ⟨data.drop cursor, by simp [hgo]⟩, ?_, by rw [hsafe, hgo]⟩
      left
      simpa [hgo] using hstop
    · have hlt : cursor < data.length := lt_of_le_of_ne hc hstop
      have hsafe_eq := splitGoSafe_succ_eq data fuel cursor hstop hlt
      by_cases hzero : byteAt data cursor = 0
      · have hgo : splitGo data (fuel + 1) cursor = [] := by
          rw [splitGo_succ, if_neg hstop, if_pos hzero]
        have hsafe : splitGoSafe data (fuel + 1) cursor = some [] := by
          rw [hsafe_eq, if_pos hzero]
        refine ⟨by simp [hgo], ⟨data.drop cursor, by simp [hgo]⟩, ?_, by rw [hsafe, hgo]⟩
        right; left
        simpa [hgo] using hzero
      · by_cases hover : data.length < cursor + byteAt data cursor
        · have hgo : splitGo data (fuel + 1) cursor = [] := by
            rw [splitGo_succ, if_neg hstop, if_neg hzero, if_pos hover]
          have hsafe : splitGoSafe data (fuel + 1) cursor = some [] := by
            rw [hsafe_eq, if_neg hzero, if_pos hover]
          refine ⟨by simp [hgo], ⟨data.drop cursor, by simp [hgo]⟩, ?_, by rw [hsafe, hgo]⟩
          right; right
          simpa [hgo] using hover
        · -- appending case: a slice of length `data[cursor]` fits in the buffer
          have hfit : cursor + byteAt data cursor ≤ data.length := by omega
          have hpos : 0 < byteAt data cursor := Nat.pos_of_ne_zero hzero
          have hf' : data.length - (cursor + byteAt data cursor) ≤ fuel := by omega
          obtain ⟨ihslices, ⟨t, iht⟩, ihstop, ihsafe⟩ :=
            ih (cursor + byteAt data cursor) hfit hf'
          have hgo : splitGo data (fuel + 1) cursor =
              ((data.drop cursor).take (byteAt data cursor)) ::
                splitGo data fuel (cursor + byteAt data cursor) := by
            rw [splitGo_succ, if_neg hstop, if_neg hzero, if_neg hover]
          have hdl : byteAt data cursor ≤ (data.drop cursor).length := by
            rw [List.length_drop]; omega
          have hslice_len : ((data.drop cursor).take (byteAt data cursor)).length =
              byteAt data cursor := by
            rw [List.length_take, Nat.min_eq_left hdl]
          refine ⟨?_, ⟨t, ?_⟩, ?_, ?_⟩
          · intro s hs
            rw [hgo] at hs
            rcases List.mem_cons.mp hs with hs | hs
            · subst hs
              constructor
              · intro hnil
                rw [← List.length_eq_zero, hslice_len] at hnil
                omega
              · rw [hslice_len, headD_take _ _ hzero, headD_drop]
            · exact ihslices s hs
          · rw [hgo]
            have hdd : (data.drop cursor).drop (byteAt data cursor) =
                data.drop (cursor + byteAt data cursor) := by
              rw [List.drop_drop, Nat.add_comm]
            calc (((data.drop cursor).take (byteAt data cursor)) ::
                    splitGo data fuel (cursor + byteAt data cursor)).flatten ++ t
                = (data.drop cursor).take (byteAt data cursor) ++
                    ((splitGo data fuel (cursor + byteAt data cursor)).flatten ++ t) := by
                  simp
              _ = (data.drop cursor).take (byteAt data cursor) ++
                    data.drop (cursor + byteAt data cursor) := by rw [iht]
              _ = (data.drop cursor).take (byteAt data cursor) ++
                    (data.drop cursor).drop (byteAt data cursor) := by rw [hdd]
              _ = data.drop cursor := List.take_append_drop _ _
          · have hlen_eq : (splitGo data (fuel + 1) cursor).flatten.length =
                byteAt data cursor +
                  (splitGo data fuel (cursor + byteAt data cursor)).flatten.length := by
              rw [hgo, List.flatten_cons, List.length_append, hslice_len]
            rw [hlen_eq, ← Nat.add_assoc]
            exact ihstop
          · rw [hsafe_eq, if_neg hzero, if_neg hover, ihsafe, hgo]
            rfl

/-- C3: for every input byte sequence, the descriptor splitter walks from
offset 0 reading a one-byte length prefix at each position, stops without
error at a zero prefix or when the declared length would overrun the
buffer, returns exactly the whole slices preceding the stop point (each
slice beginning with its own length byte), and never indexes out of
bounds (the checked-access variant returns the same result). -/
theorem split_desc_exact_and_safe (data : List Nat) :
    (∀ s ∈ split_desc data, s ≠ [] ∧ s.headD 0 = s.length) ∧
    (∃ t, (split_desc data).flatten ++ t = data) ∧
    ((split_desc data).flatten.length = data.length ∨
      byteAt data (split_desc data).flatten.length = 0 ∨
      data.length < (split_desc data).flatten.length +
        byteAt data (split_desc data).flatten.length) ∧
    splitDescSafe data = some (split_desc data) := by
  obtain ⟨h1, ⟨t, h2⟩, h3, h4⟩ :=
    splitGo_spec data data.length 0 (Nat.zero_le _) (by omega)
  exact ⟨h1, ⟨t, by simpa using h2⟩, by simpa [split_desc] using h3, h4⟩

/-- Concrete run of the C3 theorem: `[2, 1, 9, 9]` splits into the single
whole slice `[2, 1]` and stops because the next prefix `9` would overrun. -/
theorem split_desc_exact_and_safe_witness :
    (∀ s ∈ split_desc [2, 1, 9, 9], s ≠ [] ∧ s.headD 0 = s.length) ∧
    (∃ t, (split_desc [2, 1, 9, 9]).flatten ++ t = [2, 1, 9, 9]) ∧
    ((split_desc [2, 1, 9, 9]).flatten.length = ([2, 1, 9, 9] : List Nat).length ∨
      byteAt [2, 1, 9, 9] (split_desc [2, 1, 9, 9]).flatten.length = 0 ∨
      ([2, 1, 9, 9] : List Nat).length < (split_desc [2, 1, 9, 9]).flatten.length +
        byteAt [2, 1, 9, 9] (split_desc [2, 1, 9, 9]).flatten.length) ∧
    splitDescSafe [2, 1, 9, 9] = some (split_desc [2, 1, 9, 9]) :=
  split_desc_exact_and_safe [2, 1, 9, 9]

/-! ## Interval-aware polling loop
(`sb_usb_midi.MIDIInputDevice.int1_read_generator`, lines 169-194) -/

/-- Outcome of one bulk IN read attempt on the bus
(`read(in_addr, data, timeout=1)`). -/
inductive ReadOutcome
  | ok (n : Nat)
  | timeout
  | err
deriving Repr, DecidableEq

/-- One yielded element of the polling generator, tagged with whether the
iteration touched the bus:
`noData` is the throttle path `yield None` (no bus access);
`busData n` is a successful read of `n` bytes (`yield filter_fn(view[:n])`);
`busTimeout` is a read that raised `USBTimeoutError` (`yield None`);
`busRaise` is a read that raised a non-timeout `USBError`, which the
generator re-raises, ending the sequence. -/
inductive PollEvent
  | noData
  | busData (n : Nat)
  | busTimeout
  | busRaise
deriving Repr, DecidableEq

/-- Did this iteration of the loop touch the bus? -/
def PollEvent.isBus : PollEvent → Bool
  | noData => false
  | busData _ => true
  | busTimeout => true
  | busRaise => true

/-- `poll_target = (interval * 3) >> 2` — "75% of the max polling
interval" (sb_usb_midi.py line 171). -/
def pollTarget (interval : Nat) : Nat := (interval * 3) >>> 2

/-- The polling loop (sb_usb_midi.py lines 174-194) as a trace function.
Each iteration consumes a pair of the delta yielded by `next(poll_dt)`
and the outcome the bus would give if it were read this iteration; the
function returns the list of yielded events, starting from accumulator
value `pm` (`poll_ms`).  A non-timeout `USBError` ends the trace: the
generator raises and is finished. -/
def pollRunAux (target : Nat) : Nat → List (Nat × ReadOutcome) → List PollEvent
  | _, [] => []
  | pm, (d, r) :: rest =>
    if pm + d < target then PollEvent.noData :: pollRunAux target (pm + d) rest
    else
      match r with
      | ReadOutcome.ok n => PollEvent.busData n :: pollRunAux target 0 rest
      | ReadOutcome.timeout => PollEvent.busTimeout :: pollRunAux target 0 rest
      | ReadOutcome.err => [PollEvent.busRaise]

/-- The polling loop started with `poll_ms = 0` (line 169). -/
def pollRun (target : Nat) (steps : List (Nat × ReadOutcome)) : List PollEvent :=
  pollRunAux target 0 steps

/-- Accumulated idle milliseconds over a list of (delta, event) steps,
starting from `pm`: deltas add up and the accumulator resets to zero at
every step that touched the bus.  Defined over the observable trace,
independently of the loop's internal accumulator. -/
def accumIdleFrom (pm : Nat) (steps : List (Nat × PollEvent)) : Nat :=
  steps.foldl (fun acc s => if s.2.isBus then 0 else acc + s.1) pm

/-- Accumulated idle milliseconds since the last bus access (or since the
generator started, if the bus was never accessed). -/
def accumIdle (steps : List (Nat × PollEvent)) : Nat := accumIdleFrom 0 steps

theorem accumIdleFrom_cons (pm d : Nat) (ev : PollEvent)
    (steps : List (Nat × PollEvent)) :
    accumIdleFrom pm ((d, ev) :: steps) =
      accumIdleFrom (if ev.isBus then 0 else pm + d) steps := by
  by_cases h : ev.isBus <;> simp [accumIdleFrom, h]

/-- Invariant of the polling loop: the event at index `k` of the trace is
a bus access exactly when the idle time accumulated over the preceding
events, plus this iteration's delta, has reached the threshold. -/
theorem pollRunAux_bus_iff (target : Nat) :
    ∀ (steps : List (Nat × ReadOutcome)) (pm k d : Nat) (r : ReadOutcome)
      (ev : PollEvent),
      steps[k]? = some (d, r) →
      (pollRunAux target pm steps)[k]? = some ev →
      (ev.isBus = true ↔
        target ≤ accumIdleFrom pm (((steps.map Prod.fst).take k).zip
          ((pollRunAux target pm steps).take k)) + d) := by
  intro steps
  induction steps with
  | nil => intro pm k d r ev hstep; simp at hstep
  | cons s rest ih =>
    obtain ⟨d0, r0⟩ := s
    intro pm k d r ev hstep hev
    by_cases hth : pm + d0 < target
    · have htr : pollRunAux target pm ((d0, r0) :: rest) =
          PollEvent.noData :: pollRunAux target (pm + d0) rest := by
        simp [pollRunAux, hth]
      rw [htr] at hev
      cases k with
      | zero =>
        simp at hstep hev
        obtain ⟨hd, hr⟩ := hstep
        subst hd
        rw [← hev]
        simp [PollEvent.isBus, accumIdleFrom]
        omega
      | succ k =>
        simp at hstep hev
        have := ih (pm + d0) k d r ev hstep hev
        rw [htr]
        simpa [List.take_succ_cons, List.zip_cons_cons,
          accumIdleFrom_cons, PollEvent.isBus] using this
    · cases r0 with
      | ok n =>
        have htr : pollRunAux target pm ((d0, ReadOutcome.ok n) :: rest) =
            PollEvent.busData n :: pollRunAux target 0 rest := by
          simp [pollRunAux, hth]
        rw [htr] at hev
        cases k with
        | zero =>
          simp at hstep hev
          obtain ⟨hd, hr⟩ := hstep
          subst hd
          rw [← hev]
          simp [PollEvent.isBus, accumIdleFrom]
          omega
        | succ k =>
          simp at hstep hev
          have := ih 0 k d r ev hstep hev
          rw [htr]
          simpa [List.take_succ_cons, List.zip_cons_cons,
            accumIdleFrom_cons, PollEvent.isBus] using this
      | timeout =>
        have htr : pollRunAux target pm ((d0, ReadOutcome.timeout) :: rest) =
            PollEvent.busTimeout :: pollRunAux target 0 rest := by
          simp [pollRunAux, hth]
        rw [htr] at hev
        cases k with
        | zero =>
          simp at hstep hev
          obtain ⟨hd, hr⟩ := hstep
          subst hd
          rw [← hev]
          simp [PollEvent.isBus, accumIdleFrom]
          omega
        | succ k =>
          simp at hstep hev
          have := ih 0 k d r ev hstep hev
          rw [htr]
          simpa [List.take_succ_cons, List.zip_cons_cons,
            accumIdleFrom_cons, PollEvent.isBus] using this
      | err =>
        have htr : pollRunAux target pm ((d0, ReadOutcome.err) :: rest) =
            [PollEvent.busRaise] := by
          simp [pollRunAux, hth]
        rw [htr] at hev
        cases k with
        | zero =>
          simp at hstep hev
          obtain ⟨hd, hr⟩ := hstep
          subst hd
          rw [← hev]
          simp [PollEvent.isBus, accumIdleFrom]
          omega
        | succ k => simp at hev

/-- C2 (amended): in interval-aware polling mode the loop issues a bulk
read exactly when the idle time accumulated since the previous read (or
since start), plus this iteration's delta, has reached the integer
threshold `(interval * 3) >> 2` — i.e. 75% of the interval rounded down
to whole milliseconds; on every iteration below the threshold it yields
the no-data marker without touching the bus. -/
theorem int1_poll_no_early_read (interval : Nat) (steps : List (Nat × ReadOutcome))
    (k d : Nat) (r : ReadOutcome) (ev : PollEvent)
    (hstep : steps[k]? = some (d, r))
    (hev : (pollRun (pollTarget interval) steps)[k]? = some ev) :
    (ev.isBus = false → ev = PollEvent.noData) ∧
    (ev.isBus = true ↔
      pollTarget interval ≤
        accumIdle (((steps.map Prod.fst).take k).zip
          ((pollRun (pollTarget interval) steps).take k)) + d) := by
  constructor
  · intro h
    cases ev <;> simp_all [PollEvent.isBus]
  · exact pollRunAux_bus_iff (pollTarget interval) steps 0 k d r ev hstep hev

/-- Concrete run of the C2 theorem: a 32 ms interval gives threshold
24 ms; after two 10 ms idle iterations, the third iteration (total idle
30 ms) reads the bus. -/
theorem int1_poll_no_early_read_witness :
    (PollEvent.busTimeout.isBus = false → PollEvent.busTimeout = PollEvent.noData) ∧
    (PollEvent.busTimeout.isBus = true ↔
      pollTarget 32 ≤
        accumIdle ((([(10, ReadOutcome.timeout), (10, ReadOutcome.timeout),
          (10, ReadOutcome.timeout)].map Prod.fst).take 2).zip
          ((pollRun (pollTarget 32) [(10, ReadOutcome.timeout),
            (10, ReadOutcome.timeout), (10, ReadOutcome.timeout)]).take 2)) + 10) :=
  int1_poll_no_early_read 32
    [(10, ReadOutcome.timeout), (10, ReadOutcome.timeout), (10, ReadOutcome.timeout)]
    2 10 ReadOutcome.timeout PollEvent.busTimeout (by rfl) (by rfl)

/-- C2 counterexample: for a full-speed endpoint with a 2 ms polling
interval the threshold is `(2*3)>>2 = 1` ms, so the loop issues a bulk
read after only 1 ms of accumulated idle time — strictly less than 75%
of the 2 ms period (4·1 < 3·2).  The claim's "reached 75% of the
polling interval" therefore fails as stated. -/
theorem int1_poll_reads_below_75_percent :
    pollTarget 2 = 1 ∧
    pollRun (pollTarget 2) [(1, ReadOutcome.timeout)] = [PollEvent.busTimeout] ∧
    accumIdle [] + 1 = 1 ∧ 4 * 1 < 3 * 2 := by
  refine ⟨rfl, ?_, rfl, by omega⟩
  rfl

/-- C8: at an eligible poll (threshold reached), a `USBTimeoutError` on
the bulk read yields the no-data marker and the generator continues with
the remaining iterations; a non-timeout `USBError` is re-raised and is
the last thing the generator ever does — no further events are produced,
whatever iterations remain. -/
theorem int1_read_timeout_vs_usberror (target pm d : Nat)
    (rest : List (Nat × ReadOutcome)) (h : target ≤ pm + d) :
    pollRunAux target pm ((d, ReadOutcome.timeout) :: rest) =
      PollEvent.busTimeout :: pollRunAux target 0 rest ∧
    pollRunAux target pm ((d, ReadOutcome.err) :: rest) = [PollEvent.busRaise] := by
  have h' : ¬ pm + d < target := by omega
  constructor <;> simp [pollRunAux, h']

/-- Concrete run of the C8 theorem: threshold 1, delta 5: a timeout
yields no-data then the loop reads on; an error ends the trace even
though an iteration remained. -/
theorem int1_read_timeout_vs_usberror_witness :
    pollRunAux 1 0 ((5, ReadOutcome.timeout) :: [(9, ReadOutcome.ok 4)]) =
      PollEvent.busTimeout :: pollRunAux 1 0 [(9, ReadOutcome.ok 4)] ∧
    pollRunAux 1 0 ((5, ReadOutcome.err) :: [(9, ReadOutcome.ok 4)]) =
      [PollEvent.busRaise] :=
  int1_read_timeout_vs_usberror 1 0 5 [(9, ReadOutcome.ok 4)] (by omega)

/-! ## bInterval decoding and the elapsed-time generator -/

/-- High-speed interval conversion from sb_usb_midi.py line 159:
`interval = (2 << (interval - 1)) >> 3`. -/
def hsIntervalMs (bInterval : Nat) : Nat := (2 <<< (bInterval - 1)) >>> 3

/-- Stated from the claim's words, for comparison with the source: the
raw high-speed `bInterval` encodes `2 ^ (bInterval - 1)` units of 125 µs
(as the source's own comment at line 143 says), converted to whole
milliseconds by right-shifting by 3 (125 µs = (1 ms) / 8). -/
def hsIntervalSpecMs (bInterval : Nat) : Nat := (2 ^ (bInterval - 1)) >>> 3

/-- The mask from `elapsed_ms_generator` (sb_usb_midi.py line 84).  The
code writes `0x3fffffff`, which is 2^30 - 1, although the adjacent
comment says "(2**29)-1 because ticks_ms rolls over at 2**29". -/
def elapsedMsMask : Int := 0x3fffffff

/-- One step of `elapsed_ms_generator` (line 88):
`delta = (t1 - t0) & mask`, for consecutive `ticks_ms` readings `t0`,
`t1`.  On Python's arbitrary-precision integers, `x & (2^k - 1)` equals
`x mod 2^k` (also for negative `x`), so the bitwise and with the mask is
reduction modulo `elapsedMsMask + 1` = 2^30. -/
def elapsedDelta (t0 t1 : Int) : Int := (t1 - t0) % (elapsedMsMask + 1)

/-! ## Descriptor model (`sb_usb_descriptor.py` classes) -/

/-- A Python `ValueError` raised by the parsing layer. -/
inductive ParseErr
  | valueErr (msg : String)
deriving Repr, DecidableEq, Inhabited

/-- USB transport exceptions.  `usb.core.USBTimeoutError` is a subclass
of `usb.core.USBError`; both are caught by `except USBError`. -/
inductive UsbErr
  | timeout
  | other
deriving Repr, DecidableEq, Inhabited

structure ConfigDesc where
  bNumInterfaces : Nat
  bConfigurationValue : Nat
  bMaxPower : Nat
deriving Repr, DecidableEq, Inhabited

/-- `ConfigDesc.__init__` (sb_usb_descriptor.py lines 69-76). -/
def ConfigDesc.ofBytes (d : List Nat) : Except ParseErr ConfigDesc :=
  if d.length ≠ 9 ∨ byteAt d 0 ≠ 0x09 ∨ byteAt d 1 ≠ 0x02 then
    Except.error (ParseErr.valueErr "Bad configuration descriptor")
  else
    Except.ok ⟨byteAt d 4, byteAt d 5, byteAt d 8⟩

structure EndpointDesc where
  bEndpointAddress : Nat
  bmAttributes : Nat
  wMaxPacketSize : Nat
  bInterval : Nat
deriving Repr, DecidableEq, Inhabited

/-- `EndpointDesc.__init__` (lines 113-122); `wMaxPacketSize` is decoded
little-endian from bytes 4 and 5. -/
def EndpointDesc.ofBytes (d : List Nat) : Except ParseErr EndpointDesc :=
  if d.length < 7 ∨ byteAt d 0 < 0x07 ∨ byteAt d 1 ≠ 0x05 then
    Except.error (ParseErr.valueErr "Bad endpoint descriptor")
  else
    Except.ok ⟨byteAt d 2, byteAt d 3, ((byteAt d 5) <<< 8) ||| byteAt d 4, byteAt d 6⟩

structure InterfaceDesc where
  bInterfaceNumber : Nat
  bNumEndpoints : Nat
  bInterfaceClass : Nat
  bInterfaceSubClass : Nat
  bInterfaceProtocol : Nat
  endpoint : List EndpointDesc
deriving Repr, DecidableEq, Inhabited

/-- `InterfaceDesc.__init__` (lines 84-94); the endpoint list starts
empty and is filled in by `read_configuration`. -/
def InterfaceDesc.ofBytes (d : List Nat) : Except ParseErr InterfaceDesc :=
  if d.length ≠ 9 ∨ byteAt d 0 ≠ 0x09 ∨ byteAt d 1 ≠ 0x04 then
    Except.error (ParseErr.valueErr "Bad interface descriptor")
  else
    Except.ok ⟨byteAt d 2, byteAt d 4, byteAt d 5, byteAt d 6, byteAt d 7, []⟩

structure Descriptor where
  device_desc_bytes : List Nat
  bcdUSB : Nat
  bDeviceClass : Nat
  bDeviceSubClass : Nat
  bDeviceProtocol : Nat
  bMaxPacketSize0 : Nat
  idVendor : Nat
  idProduct : Nat
  bNumConfigurations : Nat
  configs : List ConfigDesc
  interfaces : List InterfaceDesc
deriving Repr, DecidableEq, Inhabited

/-- `Descriptor.__init__` (lines 145-166): check the length byte of the
18-byte device-descriptor buffer (`get_desc` fills a fixed
`bytearray(18)`, so the buffer itself always has length 18) and decode
the fields; configuration and interface lists start empty. -/
def Descriptor.ofBytes (d : List Nat) : Except ParseErr Descriptor :=
  if byteAt d 0 ≠ 18 then Except.error (ParseErr.valueErr "Bad Device Descriptor Length")
  else Except.ok
    { device_desc_bytes := d
      bcdUSB := ((byteAt d 3) <<< 8) ||| byteAt d 2
      bDeviceClass := byteAt d 4
      bDeviceSubClass := byteAt d 5
      bDeviceProtocol := byteAt d 6
      bMaxPacketSize0 := byteAt d 7
      idVendor := ((byteAt d 9) <<< 8) ||| byteAt d 8
      idProduct := ((byteAt d 11) <<< 8) ||| byteAt d 10
      bNumConfigurations := byteAt d 17
      configs := []
      interfaces := [] }

/-- `Descriptor.to_bytes` (line 237): the raw device-descriptor bytes,
used (as a string key) as the deduplication fingerprint. -/
def Descriptor.to_bytes (x : Descriptor) : List Nat := x.device_desc_bytes

/-- `dev_class_subclass_protocol` (lines 171-173). -/
def Descriptor.dev_class_subclass_protocol (x : Descriptor) : Nat × Nat × Nat :=
  (x.bDeviceClass, x.bDeviceSubClass, x.bDeviceProtocol)

/-- `class_subclass_protocol` (lines 175-183): the triple of the first
interface with the requested number; `none` models the source's
`(None, None, None)` sentinel. -/
def Descriptor.class_subclass_protocol (x : Descriptor) (interface : Nat) :
    Option (Nat × Nat × Nat) :=
  match x.interfaces.find? (fun i => i.bInterfaceNumber == interface) with
  | some i => some (i.bInterfaceClass, i.bInterfaceSubClass, i.bInterfaceProtocol)
  | none => none

/-- `output_endpoints` (lines 185-194): endpoints of the matching
interfaces whose address has bit 7 (0x80) clear. -/
def Descriptor.output_endpoints (x : Descriptor) (interface : Nat) : List EndpointDesc :=
  ((x.interfaces.filter (fun i => i.bInterfaceNumber == interface)).map
    (fun i => i.endpoint.filter (fun e => e.bEndpointAddress &&& 0x80 == 0))).flatten

/-- `input_endpoints` (lines 196-205): endpoints of the matching
interfaces whose address has bit 7 (0x80) set. -/
def Descriptor.input_endpoints (x : Descriptor) (interface : Nat) : List EndpointDesc :=
  ((x.interfaces.filter (fun i => i.bInterfaceNumber == interface)).map
    (fun i => i.endpoint.filter (fun e => e.bEndpointAddress &&& 0x80 != 0))).flatten

/-- The endpoint branch of `read_configuration` (line 233):
`self.interfaces[interface_num].add_endpoint_descriptor(d)` appends to
the most recently parsed interface (`interface_num` is
`len(interfaces) - 1`). -/
def addEndpointToLast (l : List InterfaceDesc) (e : EndpointDesc) : List InterfaceDesc :=
  match l with
  | [] => []
  | [i] => [{ i with endpoint := i.endpoint ++ [e] }]
  | i :: rest => i :: addEndpointToLast rest e

/-- Dispatch loop of `read_configuration` (lines 217-235): fold the
split sub-descriptor slices into configuration and interface lists,
dispatching on the `(bLength << 8) | bDescriptorType` tag; an
endpoint-type descriptor before any interface is a `ValueError`. -/
def readConfigLoop : List (List Nat) → List ConfigDesc → List InterfaceDesc →
    Except ParseErr (List ConfigDesc × List InterfaceDesc)
  | [], cs, ifs => Except.ok (cs, ifs)
  | d :: rest, cs, ifs =>
    if d.length < 2 then readConfigLoop rest cs ifs
    else if ((byteAt d 0) <<< 8) ||| byteAt d 1 = 0x0902 then
      match ConfigDesc.ofBytes d with
      | Except.ok c => readConfigLoop rest (cs ++ [c]) ifs
      | Except.error e => Except.error e
    else if ((byteAt d 0) <<< 8) ||| byteAt d 1 = 0x0904 then
      match InterfaceDesc.ofBytes d with
      | Except.ok i => readConfigLoop rest cs (ifs ++ [i])
      | Except.error e => Except.error e
    else if 7 ≤ byteAt d 0 ∧ byteAt d 0 ≤ 9 ∧ byteAt d 1 = 0x05 then
      if ifs.isEmpty then Except.error (ParseErr.valueErr "Found endpoint before interface")
      else
        match EndpointDesc.ofBytes d with
        | Except.ok e => readConfigLoop rest cs (addEndpointToLast ifs e)
        | Except.error e => Except.error e
    else readConfigLoop rest cs ifs

/-- `read_configuration` (lines 207-235) applied to the raw blob
returned by `get_desc(device, 0x02, length=256)`: split it, fail on an
empty slice list, else fold the slices into the descriptor tree. -/
def readConfiguration (cfgBuf : List Nat) :
    Except ParseErr (List ConfigDesc × List InterfaceDesc) :=
  if (split_desc cfgBuf).isEmpty then
    Except.error (ParseErr.valueErr "Empty Configuration Descriptor")
  else readConfigLoop (split_desc cfgBuf) [] []

/-- The assignments `self.configs = ...; self.interfaces = ...` at the
end of a successful `read_configuration`. -/
def Descriptor.withConfiguration (x : Descriptor)
    (ci : List ConfigDesc × List InterfaceDesc) : Descriptor :=
  { x with configs := ci.1, interfaces := ci.2 }

/-! ## Device scanning (`sb_usb_midi.find_usb_device`) -/

/-- Negotiated link speed (`usb.util.SPEED_LOW/FULL/HIGH`). -/
inductive Speed
  | low
  | full
  | high
deriving Repr, DecidableEq

def exceptDecEq {ε α : Type} [DecidableEq ε] [DecidableEq α] :
    DecidableEq (Except ε α)
  | Except.error x, Except.error y =>
    if h : x = y then isTrue (h ▸ rfl) else isFalse (fun c => h (by injection c))
  | Except.error _, Except.ok _ => isFalse (fun c => Except.noConfusion c)
  | Except.ok _, Except.error _ => isFalse (fun c => Except.noConfusion c)
  | Except.ok x, Except.ok y =>
    if h : x = y then isTrue (h ▸ rfl) else isFalse (fun c => h (by injection c))

instance {ε α : Type} [DecidableEq ε] [DecidableEq α] : DecidableEq (Except ε α) :=
  exceptDecEq

/-- A USB device as the driver sees it: the outcomes of the two control
transfers `get_desc(device, 0x01, length=18)` (an 18-byte buffer) and
`get_desc(device, 0x02, length=256)` (a 256-byte buffer), plus the
negotiated speed.  `get_desc` fills a fixed-size `bytearray`, so a
successful read always yields a buffer of the requested length. -/
structure USBDevice where
  devDescBuf : Except UsbErr (List Nat)
  cfgDescBuf : Except UsbErr (List Nat)
  speed : Speed
deriving Repr, DecidableEq

/-- `ScanResult.__init__` (sb_usb_midi.py lines 67-75). -/
structure ScanResult where
  device : USBDevice
  descriptor : Descriptor
  vid : Nat
  pid : Nat
  dev_info : Nat × Nat × Nat
  int0_info : Option (Nat × Nat × Nat)
  int1_info : Option (Nat × Nat × Nat)
deriving Repr, DecidableEq

def mkScanResult (device : USBDevice) (descriptor : Descriptor) : ScanResult :=
  { device := device
    descriptor := descriptor
    vid := descriptor.idVendor
    pid := descriptor.idProduct
    dev_info := descriptor.dev_class_subclass_protocol
    int0_info := descriptor.class_subclass_protocol 0
    int1_info := descriptor.class_subclass_protocol 1 }

/-- Observable USB control transfers issued during one scan pass,
indexed by the position of the device in enumeration order:
`readDevDesc i` is the 18-byte GET_DESCRIPTOR(device) transfer issued by
`Descriptor(device)`, `readConfig i` the GET_DESCRIPTOR(configuration)
transfer issued by `read_configuration`. -/
inductive ScanEvent
  | readDevDesc (i : Nat)
  | readConfig (i : Nat)
deriving Repr, DecidableEq

/-- Result of one call to `find_usb_device`: the returned value, the
final contents of `device_cache`, and the control transfers issued. -/
structure ScanOutput where
  result : Option ScanResult
  cache : List (List Nat)
  events : List ScanEvent
deriving Repr, DecidableEq

/-- The classification test at line 53:
`d == (0, 0, 0) and i0 == (1, 1, 0) and i1 == (1, 3, 0)`. -/
def isMidiSignature (desc : Descriptor) : Bool :=
  desc.dev_class_subclass_protocol == (0, 0, 0) &&
  desc.class_subclass_protocol 0 == some (1, 1, 0) &&
  desc.class_subclass_protocol 1 == some (1, 3, 0)

/-- Loop of `find_usb_device` (lines 37-64) over the devices returned by
`core.find(find_all=True)`, with `i` the enumeration index of the head
device.  A `ValueError` or `USBError` raised while handling one device
is caught and scanning continues with the next device; a fingerprint
cache hit returns `None` for the whole pass; a classification verdict —
match or mismatch — also returns from the whole pass. -/
def findLoop : Nat → List USBDevice → List (List Nat) → List ScanEvent → ScanOutput
  | _, [], cache, evs => ⟨none, cache, evs⟩
  | i, dev :: rest, cache, evs =>
    match dev.devDescBuf with
    | Except.error _ => findLoop (i + 1) rest cache (evs ++ [ScanEvent.readDevDesc i])
    | Except.ok d =>
      match Descriptor.ofBytes d with
      | Except.error _ => findLoop (i + 1) rest cache (evs ++ [ScanEvent.readDevDesc i])
      | Except.ok desc =>
        if desc.to_bytes ∈ cache then
          ⟨none, cache, evs ++ [ScanEvent.readDevDesc i]⟩
        else
          match dev.cfgDescBuf with
          | Except.error _ =>
            findLoop (i + 1) rest (cache ++ [desc.to_bytes])
              (evs ++ [ScanEvent.readDevDesc i, ScanEvent.readConfig i])
          | Except.ok cfg =>
            match readConfiguration cfg with
            | Except.error _ =>
              findLoop (i + 1) rest (cache ++ [desc.to_bytes])
                (evs ++ [ScanEvent.readDevDesc i, ScanEvent.readConfig i])
            | Except.ok ci =>
              if isMidiSignature (desc.withConfiguration ci) then
                ⟨some (mkScanResult dev (desc.withConfiguration ci)),
                  cache ++ [desc.to_bytes],
                  evs ++ [ScanEvent.readDevDesc i, ScanEvent.readConfig i]⟩
              else
                ⟨none, cache ++ [desc.to_bytes],
                  evs ++ [ScanEvent.readDevDesc i, ScanEvent.readConfig i]⟩

/-- `find_usb_device(device_cache)` (lines 31-64). -/
def find_usb_device (devices : List USBDevice) (cache : List (List Nat)) : ScanOutput :=
  findLoop 0 devices cache []

/-! ## MIDI input device construction and generator startup
(`sb_usb_midi.MIDIInputDevice`) -/

/-- The state `MIDIInputDevice.__init__` (lines 94-116) leaves behind:
the device handle and the endpoints resolved for interface 1.  The bus
side effects (kernel-driver detach, `set_configuration`) and the fields
`_prev` and `buf64`, which the read path never uses, are not modelled. -/
structure MIDIInputDevice where
  device : Option USBDevice
  int1_endpoint_in : Option EndpointDesc
  int1_endpoint_out : Option EndpointDesc
deriving Repr, DecidableEq

/-- `MIDIInputDevice.__init__`: `self.device = device` (always the
actual device from the scan result, line 102);
`endpoint_in = None if (len(ins) < 1) else ins[0]` (lines 111-116). -/
def MIDIInputDevice.ofScanResult (scan_result : ScanResult) : MIDIInputDevice :=
  { device := some scan_result.device
    int1_endpoint_in := (scan_result.descriptor.input_endpoints 1).head?
    int1_endpoint_out := (scan_result.descriptor.output_endpoints 1).head? }

/-- What the first `next()` on the generator returned by
`int1_read_generator` executes before entering the polling loop (lines
149-171): dereference `self.int1_endpoint_in` (line 149) and
`self.device` (line 151).  When either is `None` the attribute access
raises `AttributeError` (`attrErr`); otherwise the loop starts with the
computed endpoint address, millisecond interval, 75%-threshold and
packet size `min(64, wMaxPacketSize)`. -/
inductive GenStart
  | attrErr
  | running (in_addr : Nat) (interval : Nat) (poll_target : Nat) (max_packet : Nat)
deriving Repr, DecidableEq

def int1ReadStart (m : MIDIInputDevice) : GenStart :=
  match m.int1_endpoint_in with
  | none => GenStart.attrErr
  | some ep =>
    match m.device with
    | none => GenStart.attrErr
    | some dev =>
      match dev.speed with
      | Speed.low =>
        GenStart.running ep.bEndpointAddress ep.bInterval
          (pollTarget ep.bInterval) (min 64 ep.wMaxPacketSize)
      | Speed.full =>
        GenStart.running ep.bEndpointAddress ep.bInterval
          (pollTarget ep.bInterval) (min 64 ep.wMaxPacketSize)
      | Speed.high =>
        GenStart.running ep.bEndpointAddress (hsIntervalMs ep.bInterval)
          (pollTarget (hsIntervalMs ep.bInterval)) (min 64 ep.wMaxPacketSize)

/-- `input_event_generator` (lines 118-130): returns `None` when
`self.device is None`; otherwise it returns the generator object, whose
body only runs at the first `next()` — modelled by its startup
outcome. -/
def input_event_generator (m : MIDIInputDevice) : Option GenStart :=
  match m.device with
  | none => none
  | some _ => some (int1ReadStart m)

theorem Descriptor.ofBytes_to_bytes (d : List Nat) (desc : Descriptor)
    (h : Descriptor.ofBytes d = Except.ok desc) : desc.to_bytes = d := by
  unfold Descriptor.ofBytes at h
  split at h
  · exact Except.noConfusion h
  · injection h with h
    subst h
    rfl

theorem findLoop_nil (i : Nat) (cache : List (List Nat)) (evs : List ScanEvent) :
    findLoop i [] cache evs = ⟨none, cache, evs⟩ := rfl

theorem findLoop_cons_devErr (i : Nat) (dev : USBDevice) (rest : List USBDevice)
    (cache : List (List Nat)) (evs : List ScanEvent) (e : UsbErr)
    (hdd : dev.devDescBuf = Except.error e) :
    findLoop i (dev :: rest) cache evs =
      findLoop (i + 1) rest cache (evs ++ [ScanEvent.readDevDesc i]) := by
  obtain ⟨db, cb, sp⟩ := dev
  cases hdd
  rfl

theorem findLoop_cons_parseErr (i : Nat) (dev : USBDevice) (rest : List USBDevice)
    (cache : List (List Nat)) (evs : List ScanEvent) (d : List Nat) (e : ParseErr)
    (hdd : dev.devDescBuf = Except.ok d)
    (hps : Descriptor.ofBytes d = Except.error e) :
    findLoop i (dev :: rest) cache evs =
      findLoop (i + 1) rest cache (evs ++ [ScanEvent.readDevDesc i]) := by
  obtain ⟨db, cb, sp⟩ := dev
  cases hdd
  show (match Descriptor.ofBytes d with
    | Except.error _ => findLoop (i + 1) rest cache (evs ++ [ScanEvent.readDevDesc i])
    | Except.ok desc =>
      if desc.to_bytes ∈ cache then
        ⟨none, cache, evs ++ [ScanEvent.readDevDesc i]⟩
      else
        match cb with
        | Except.error _ =>
          findLoop (i + 1) rest (cache ++ [desc.to_bytes])
            (evs ++ [ScanEvent.readDevDesc i, ScanEvent.readConfig i])
        | Except.ok cfg =>
          match readConfiguration cfg with
          | Except.error _ =>
            findLoop (i + 1) rest (cache ++ [desc.to_bytes])
              (evs ++ [ScanEvent.readDevDesc i, ScanEvent.readConfig i])
          | Except.ok ci =>
            if isMidiSignature (desc.withConfiguration ci) then
              ⟨some (mkScanResult ⟨Except.ok d, cb, sp⟩ (desc.withConfiguration ci)),
                cache ++ [desc.to_bytes],
                evs ++ [ScanEvent.readDevDesc i, ScanEvent.readConfig i]⟩
            else
              ⟨none, cache ++ [desc.to_bytes],
                evs ++ [ScanEvent.readDevDesc i, ScanEvent.readConfig i]⟩) = _
  rw [hps]

theorem findLoop_cons_ok (i : Nat) (dev : USBDevice) (rest : List USBDevice)
    (cache : List (List Nat)) (evs : List ScanEvent) (d : List Nat) (desc : Descriptor)
    (hdd : dev.devDescBuf = Except.ok d)
    (hps : Descriptor.ofBytes d = Except.ok desc) :
    findLoop i (dev :: rest) cache evs =
      if desc.to_bytes ∈ cache then ⟨none, cache, evs ++ [ScanEvent.readDevDesc i]⟩
      else
        match dev.cfgDescBuf with
        | Except.error _ =>
          findLoop (i + 1) rest (cache ++ [desc.to_bytes])
            (evs ++ [ScanEvent.readDevDesc i, ScanEvent.readConfig i])
        | Except.ok cfg =>
          match readConfiguration cfg with
          | Except.error _ =>
            findLoop (i + 1) rest (cache ++ [desc.to_bytes])
              (evs ++ [ScanEvent.readDevDesc i, ScanEvent.readConfig i])
          | Except.ok ci =>
            if isMidiSignature (desc.withConfiguration ci) then
              ⟨some (mkScanResult dev (desc.withConfiguration ci)),
                cache ++ [desc.to_bytes],
                evs ++ [ScanEvent.readDevDesc i, ScanEvent.readConfig i]⟩
            else
              ⟨none, cache ++ [desc.to_bytes],
                evs ++ [ScanEvent.readDevDesc i, ScanEvent.readConfig i]⟩ := by
  obtain ⟨db, cb, sp⟩ := dev
  cases hdd
  show (match Descriptor.ofBytes d with
    | Except.error _ => findLoop (i + 1) rest cache (evs ++ [ScanEvent.readDevDesc i])
    | Except.ok desc =>
      if desc.to_bytes ∈ cache then
        ⟨none, cache, evs ++ [ScanEvent.readDevDesc i]⟩
      else
        match cb with
        | Except.error _ =>
          findLoop (i + 1) rest (cache ++ [desc.to_bytes])
            (evs ++ [ScanEvent.readDevDesc i, ScanEvent.readConfig i])
        | Except.ok cfg =>
          match readConfiguration cfg with
          | Except.error _ =>
            findLoop (i + 1) rest (cache ++ [desc.to_bytes])
              (evs ++ [ScanEvent.readDevDesc i, ScanEvent.readConfig i])
          | Except.ok ci =>
            if isMidiSignature (desc.withConfiguration ci) then
              ⟨some (mkScanResult ⟨Except.ok d, cb, sp⟩ (desc.withConfiguration ci)),
                cache ++ [desc.to_bytes],
                evs ++ [ScanEvent.readDevDesc i, ScanEvent.readConfig i]⟩
            else
              ⟨none, cache ++ [desc.to_bytes],
                evs ++ [ScanEvent.readDevDesc i, ScanEvent.readConfig i]⟩) = _
  rw [hps]

/-- `device_cache` only grows: everything in the cache when `findLoop`
starts is still there when it returns. -/
theorem findLoop_cache_mono (devices : List USBDevice) :
    ∀ (i : Nat) (cache : List (List Nat)) (evs : List ScanEvent) (x : List Nat),
      x ∈ cache → x ∈ (findLoop i devices cache evs).cache := by
  induction devices with
  | nil => intro i cache evs x hx; simpa [findLoop_nil] using hx
  | cons dev rest ih =>
    intro i cache evs x hx
    cases hdd : dev.devDescBuf with
    | error e =>
      rw [findLoop_cons_devErr i dev rest cache evs e hdd]
      exact ih _ _ _ _ hx
    | ok d =>
      cases hps : Descriptor.ofBytes d with
      | error e =>
        rw [findLoop_cons_parseErr i dev rest cache evs d e hdd hps]
        exact ih _ _ _ _ hx
      | ok desc =>
        have hx' : x ∈ cache ++ [desc.to_bytes] := by simp [hx]
        by_cases hmem : desc.to_bytes ∈ cache
        · rw [findLoop_cons_ok i dev rest cache evs d desc hdd hps, if_pos hmem]
          exact hx
        · rw [findLoop_cons_ok i dev rest cache evs d desc hdd hps, if_neg hmem]
          cases hcfg : dev.cfgDescBuf with
          | error e =>
            simp only [hcfg]
            exact ih _ _ _ _ hx'
          | ok cfg =>
            cases hrc : readConfiguration cfg with
            | error e =>
              simp only [hcfg, hrc]
              exact ih _ _ _ _ hx'
            | ok ci =>
              simp only [hcfg, hrc]
              by_cases hsig : isMidiSignature (desc.withConfiguration ci) <;>
                simp [hsig, hx']

/-- C1: when the scanner examines a device (arbitrary seen-set contents,
arbitrary remaining devices) whose descriptors parse successfully and
whose fingerprint is new, it returns a match result for that device iff
the device class/subclass/protocol triple is (0,0,0), interface 0's
triple is (1,1,0) and interface 1's triple is (1,3,0); if the signature
test fails — any field of any of the three triples differing — the scan
produces no match result. -/
theorem find_usb_device_match_iff (dev : USBDevice) (rest : List USBDevice)
    (cache : List (List Nat)) (d cfg : List Nat) (desc : Descriptor)
    (ci : List ConfigDesc × List InterfaceDesc)
    (hdd : dev.devDescBuf = Except.ok d) (_hlen : d.length = 18)
    (hps : Descriptor.ofBytes d = Except.ok desc)
    (hnc : d ∉ cache)
    (hcfg : dev.cfgDescBuf = Except.ok cfg)
    (hrc : readConfiguration cfg = Except.ok ci) :
    (isMidiSignature (desc.withConfiguration ci) = true →
      (find_usb_device (dev :: rest) cache).result =
        some (mkScanResult dev (desc.withConfiguration ci))) ∧
    (isMidiSignature (desc.withConfiguration ci) = false →
      (find_usb_device (dev :: rest) cache).result = none) := by
  have hb := Descriptor.ofBytes_to_bytes d desc hps
  have hmem : desc.to_bytes ∉ cache := by rw [hb]; exact hnc
  constructor
  · intro hsig
    unfold find_usb_device
    rw [findLoop_cons_ok 0 dev rest cache [] d desc hdd hps, if_neg hmem]
    simp [hcfg, hrc, hsig]
  · intro hsig
    unfold find_usb_device
    rw [findLoop_cons_ok 0 dev rest cache [] d desc hdd hps, if_neg hmem]
    simp [hcfg, hrc, hsig]

/-- Device-descriptor bytes of a composite (class triple (0,0,0))
device. -/
def cDevBytes : List Nat :=
  [18, 1, 0, 2, 0, 0, 0, 64, 0x35, 0x09, 0x01, 0x78, 0, 1, 0, 0, 0, 1]

/-- Configuration blob: one configuration, interface 0 = Audio Control
(1,1,0), interface 1 = MIDI Streaming (1,3,0) with one IN and one OUT
bulk endpoint. -/
def cCfgBytes : List Nat :=
  [9, 2, 0, 0, 2, 1, 0, 0x80, 50] ++
  [9, 4, 0, 0, 0, 1, 1, 0, 0] ++
  [9, 4, 1, 0, 2, 1, 3, 0, 0] ++
  [7, 5, 0x81, 2, 64, 0, 0] ++
  [7, 5, 0x01, 2, 64, 0, 0]

/-- A well-formed USB MIDI device. -/
def cMidiDev : USBDevice := ⟨Except.ok cDevBytes, Except.ok cCfgBytes, Speed.full⟩

/-- The parsed device descriptor of `cDevBytes` (before the
configuration read). -/
def cDesc0 : Descriptor :=
  match Descriptor.ofBytes cDevBytes with
  | Except.ok x => x
  | Except.error _ => default

/-- The parsed configuration tree of `cCfgBytes`. -/
def cCi : List ConfigDesc × List InterfaceDesc :=
  match readConfiguration cCfgBytes with
  | Except.ok x => x
  | Except.error _ => default

/-- Concrete run of the C1 theorem: the well-formed MIDI device is
matched. -/
theorem find_usb_device_match_iff_witness :
    (find_usb_device [cMidiDev] []).result =
      some (mkScanResult cMidiDev (cDesc0.withConfiguration cCi)) :=
  (find_usb_device_match_iff cMidiDev [] [] cDevBytes cCfgBytes cDesc0 cCi
    rfl rfl rfl (by decide) rfl rfl).1 (by decide)

/-- C4: if the device the scanner is examining has its fingerprint
already in the seen-set, the whole scan pass returns nothing at once:
the cache is unchanged and the only control transfer issued in the
entire pass is that device's own device-descriptor read — no remaining
device is examined. -/
theorem find_usb_device_seen_aborts (dev : USBDevice) (rest : List USBDevice)
    (cache : List (List Nat)) (d : List Nat) (desc : Descriptor)
    (hdd : dev.devDescBuf = Except.ok d) (_hlen : d.length = 18)
    (hps : Descriptor.ofBytes d = Except.ok desc)
    (hseen : d ∈ cache) :
    find_usb_device (dev :: rest) cache =
      ⟨none, cache, [ScanEvent.readDevDesc 0]⟩ := by
  have hb := Descriptor.ofBytes_to_bytes d desc hps
  have hmem : desc.to_bytes ∈ cache := by rw [hb]; exact hseen
  unfold find_usb_device
  rw [findLoop_cons_ok 0 dev rest cache [] d desc hdd hps, if_pos hmem]
  rfl

/-- Concrete run of the C4 theorem: the second, matching MIDI device in
enumeration order is never examined because the first device's
fingerprint was seen. -/
theorem find_usb_device_seen_aborts_witness :
    find_usb_device [cMidiDev, cMidiDev] [cDevBytes] =
      ⟨none, [cDevBytes], [ScanEvent.readDevDesc 0]⟩ :=
  find_usb_device_seen_aborts cMidiDev [cMidiDev] [cDevBytes] cDevBytes cDesc0
    rfl rfl rfl (by decide)

/-- C9 counterexample: re-scanning the unchanged device with its
fingerprint retained in the seen-set does yield no match, but a USB
control transfer for that device IS issued — the 18-byte GET_DESCRIPTOR
(device) read performed by `Descriptor(device)` before the cache is
consulted.  The claim's "without issuing any new USB control transfers
for that device (its descriptors are not re-read)" is false. -/
theorem find_usb_device_seen_still_reads_device_descriptor :
    (find_usb_device [cMidiDev] [cDevBytes]).result = none ∧
    (find_usb_device [cMidiDev] [cDevBytes]).events = [ScanEvent.readDevDesc 0] ∧
    (find_usb_device [cMidiDev] [cDevBytes]).events ≠ [] := by decide

/-- C9 (amended): re-scanning the same unchanged device with the
seen-set retained yields no match and issues no configuration-descriptor
control transfer for it; its 18-byte device descriptor, however, is
re-read each pass to recompute the fingerprint. -/
theorem find_usb_device_seen_skips_config_read (dev : USBDevice)
    (rest : List USBDevice) (cache : List (List Nat)) (d : List Nat)
    (desc : Descriptor)
    (hdd : dev.devDescBuf = Except.ok d) (_hlen : d.length = 18)
    (hps : Descriptor.ofBytes d = Except.ok desc)
    (hseen : d ∈ cache) :
    (find_usb_device (dev :: rest) cache).result = none ∧
    (∀ i, ScanEvent.readConfig i ∉ (find_usb_device (dev :: rest) cache).events) ∧
    (find_usb_device (dev :: rest) cache).events = [ScanEvent.readDevDesc 0] := by
  have hb := Descriptor.ofBytes_to_bytes d desc hps
  have hmem : desc.to_bytes ∈ cache := by rw [hb]; exact hseen
  have heq : find_usb_device (dev :: rest) cache =
      ⟨none, cache, [ScanEvent.readDevDesc 0]⟩ := by
    unfold find_usb_device
    rw [findLoop_cons_ok 0 dev rest cache [] d desc hdd hps, if_pos hmem]
    rfl
  rw [heq]
  refine ⟨rfl, ?_, rfl⟩
  intro i hin
  simp at hin

/-- Concrete run of the C9 amended theorem. -/
theorem find_usb_device_seen_skips_config_read_witness :
    (find_usb_device [cMidiDev] [cDevBytes]).result = none ∧
    (∀ i, ScanEvent.readConfig i ∉ (find_usb_device [cMidiDev] [cDevBytes]).events) ∧
    (find_usb_device [cMidiDev] [cDevBytes]).events = [ScanEvent.readDevDesc 0] :=
  find_usb_device_seen_skips_config_read cMidiDev [] [cDevBytes] cDevBytes cDesc0
    rfl rfl rfl (by decide)

/-- C10: a device whose 18-byte device descriptor reads and validates
successfully, and whose fingerprint is new, has the fingerprint inserted
into the seen-set no matter how the rest of its examination goes — no
assumption is made on the configuration read, so a device that later
fails with a malformed descriptor or transport error is still
remembered; and any device presenting that fingerprint makes a
subsequent scan pass abort immediately. -/
theorem find_usb_device_remembers_before_classifying (dev : USBDevice)
    (rest : List USBDevice) (cache : List (List Nat)) (d : List Nat)
    (desc : Descriptor)
    (hdd : dev.devDescBuf = Except.ok d) (_hlen : d.length = 18)
    (hps : Descriptor.ofBytes d = Except.ok desc)
    (hnew : d ∉ cache) :
    d ∈ (find_usb_device (dev :: rest) cache).cache ∧
    (∀ (dev2 : USBDevice) (rest2 : List USBDevice) (cache2 : List (List Nat)),
      dev2.devDescBuf = Except.ok d → d ∈ cache2 →
      find_usb_device (dev2 :: rest2) cache2 =
        ⟨none, cache2, [ScanEvent.readDevDesc 0]⟩) := by
  have hb := Descriptor.ofBytes_to_bytes d desc hps
  have hmem : desc.to_bytes ∉ cache := by rw [hb]; exact hnew
  have hself : d ∈ cache ++ [desc.to_bytes] := by simp [hb]
  constructor
  · unfold find_usb_device
    rw [findLoop_cons_ok 0 dev rest cache [] d desc hdd hps, if_neg hmem]
    cases hcfg : dev.cfgDescBuf with
    | error e =>
      simp only [hcfg]
      exact findLoop_cache_mono rest _ _ _ _ hself
    | ok cfg =>
      cases hrc : readConfiguration cfg with
      | error e =>
        simp only [hcfg, hrc]
        exact findLoop_cache_mono rest _ _ _ _ hself
      | ok ci =>
        simp only [hcfg, hrc]
        by_cases hsig : isMidiSignature (desc.withConfiguration ci) <;>
          simp [hsig, hself]
  · intro dev2 rest2 cache2 hdd2 hseen2
    have hmem2 : desc.to_bytes ∈ cache2 := by rw [hb]; exact hseen2
    unfold find_usb_device
    rw [findLoop_cons_ok 0 dev2 rest2 cache2 [] d desc hdd2 hps, if_pos hmem2]
    rfl

/-- A device whose configuration read fails with a transport error. -/
def cCfgErrDev : USBDevice := ⟨Except.ok cDevBytes, Except.error UsbErr.other, Speed.full⟩

/-- Concrete run of the C10 theorem: the configuration read fails, the
fingerprint is remembered anyway, and its reappearance aborts the next
pass. -/
theorem find_usb_device_remembers_before_classifying_witness :
    cDevBytes ∈ (find_usb_device [cCfgErrDev] []).cache ∧
    find_usb_device [cCfgErrDev] ((find_usb_device [cCfgErrDev] []).cache) =
      ⟨none, (find_usb_device [cCfgErrDev] []).cache, [ScanEvent.readDevDesc 0]⟩ := by
  have h := find_usb_device_remembers_before_classifying cCfgErrDev [] [] cDevBytes
    cDesc0 rfl rfl rfl (by decide)
  exact ⟨h.1, h.2 cCfgErrDev [] _ rfl h.1⟩

/-- Configuration blob like `cCfgBytes`, but the MIDI Streaming
interface declares only an OUT endpoint — no IN endpoint. -/
def cNoInCfgBytes : List Nat :=
  [9, 2, 0, 0, 2, 1, 0, 0x80, 50] ++
  [9, 4, 0, 0, 0, 1, 1, 0, 0] ++
  [9, 4, 1, 0, 1, 1, 3, 0, 0] ++
  [7, 5, 0x01, 2, 64, 0, 0]

/-- A matching MIDI device with no IN endpoint on interface 1. -/
def cNoInDev : USBDevice := ⟨Except.ok cDevBytes, Except.ok cNoInCfgBytes, Speed.full⟩

/-- The fully parsed descriptor tree of `cNoInDev`. -/
def cNoInDesc : Descriptor :=
  match Descriptor.ofBytes cDevBytes, readConfiguration cNoInCfgBytes with
  | Except.ok x, Except.ok ci => x.withConfiguration ci
  | _, _ => default

/-- C5: the code does not realize the claim.  A matched device whose
MIDI-streaming interface has no IN endpoint is accepted by the scanner
and construction stores `int1_endpoint_in = None` (the "no input
endpoint" state) — but the read operation does not treat this as an
empty sequence: `input_event_generator` only guards `self.device is
None`, which never holds (construction always stores the scanned
device), so it returns the generator, whose first iteration evaluates
`self.int1_endpoint_in.bEndpointAddress` on `None` and raises
`AttributeError` — a crash. -/
theorem midi_device_no_input_endpoint_crashes :
    (find_usb_device [cNoInDev] []).result = some (mkScanResult cNoInDev cNoInDesc) ∧
    (MIDIInputDevice.ofScanResult (mkScanResult cNoInDev cNoInDesc)).int1_endpoint_in
      = none ∧
    (MIDIInputDevice.ofScanResult (mkScanResult cNoInDev cNoInDesc)).device ≠ none ∧
    input_event_generator (MIDIInputDevice.ofScanResult (mkScanResult cNoInDev cNoInDesc))
      = some GenStart.attrErr := by decide

/-- C6: the code's high-speed conversion `(2 << (bInterval - 1)) >> 3`
computes 2^bInterval units of 125 µs, twice the decoding claimed (and
stated in the source's own comment at line 143), 2^(bInterval-1) units.
At bInterval = 8 the loop's period is 32 ms where the claimed decoding
gives 16 ms; the polling loop (last conjunct) really runs with the
32 ms period and the 24 ms threshold. -/
theorem hs_interval_code_doubles_claimed_decoding :
    hsIntervalMs 8 = 32 ∧ hsIntervalSpecMs 8 = 16 ∧
    hsIntervalMs 8 ≠ hsIntervalSpecMs 8 ∧
    int1ReadStart ⟨some ⟨Except.ok cDevBytes, Except.ok cCfgBytes, Speed.high⟩,
      some ⟨0x81, 3, 64, 8⟩, none⟩ = GenStart.running 0x81 32 24 64 := by decide

/-- C7: the delta computation does not reduce modulo 2^29 as claimed:
the mask written in the source is `0x3fffffff` = 2^30 - 1, although its
own comment says "(2**29)-1 because ticks_ms rolls over at 2**29".  At
the rollover pair t0 = 2^29 - 1 (the largest `ticks_ms` reading),
t1 = 0, the code computes 2^30 - (2^29 - 1) = 536870913 ms, whereas
(t1 - t0) mod 2^29 = 1 ms. -/
theorem elapsed_delta_uses_2_pow_30_not_2_pow_29 :
    elapsedMsMask = 2 ^ 30 - 1 ∧
    elapsedDelta 536870911 0 = 536870913 ∧
    ((0 : Int) - 536870911) % (2 ^ 29) = 1 ∧
    elapsedDelta 536870911 0 ≠ ((0 : Int) - 536870911) % (2 ^ 29) := by
  refine ⟨by decide, by decide, by decide, by decide⟩
